import Mathlib

/-!
Verification of the vcpu virtual processor, its storage abstraction and the
vasm assembler, by shallow embedding of the Rust sources into Lean.

Machine integers (`u32`, `i16`, `i32`, `i64`) are modelled as `Nat` carrying
the raw bit patterns, with explicit reductions modulo `2 ^ 32` where the
source performs wrapping `u32` arithmetic, and with helpers interpreting a
bit pattern as a two's-complement signed value (`Int`).  `f32` values are
carried as opaque 32-bit patterns; the floating-point operations themselves
are uninterpreted parameters of the model.
-/

namespace VCpu

/-- Reduce a natural number to the range of a `u32` (wrapping semantics). -/
def wrap32 (n : Nat) : Nat := n % 4294967296

/-- Interpret the low 32 bits of a value as a two's-complement `i32`. -/
def toI32 (n : Nat) : Int :=
  let m := n % 4294967296
  if m < 2147483648 then (m : Int) else (m : Int) - 4294967296

/-- Interpret the low 16 bits of a value as a two's-complement `i16`. -/
def toI16 (n : Nat) : Int :=
  let m := n % 65536
  if m < 32768 then (m : Int) else (m : Int) - 65536

/-- Reduce an integer to the raw 32-bit pattern of its two's-complement
representation (the effect of `as u32` / `Wrapping<i32>` in the source). -/
def wrap32I (i : Int) : Nat := (i % 4294967296).toNat

/-- Little-endian byte list of the low `size` bytes of `value`
(`byteorder::LittleEndian::write_uint`). -/
def leBytes : Nat → Nat → List Nat
  | 0, _ => []
  | n + 1, v => (v % 256) :: leBytes n (v / 256)

/-- Little-endian integer read of a byte list
(`byteorder::LittleEndian::read_uint`). -/
def readLE : List Nat → Nat
  | [] => 0
  | b :: rest => b + 256 * readLE rest

theorem leBytes_length (n v : Nat) : (leBytes n v).length = n := by
  induction n generalizing v with
  | zero => rfl
  | succ n ih => simp [leBytes, ih]

theorem readLE_leBytes (n v : Nat) : readLE (leBytes n v) = v % 256 ^ n := by
  induction n generalizing v with
  | zero => simp [leBytes, readLE, Nat.mod_one]
  | succ n ih =>
      rw [leBytes, readLE, ih, pow_succ, mul_comm (256 ^ n) 256, Nat.mod_mul]

/-! ## The `Storage` contract and the plain `Memory` implementation
(`src/memory.rs`).  `Memory` owns a `Vec<u8>`, modelled as a list of bytes.
Fallible operations return `Option`; `none` covers both `Err(())` results
and panics (which are noted where they can occur). -/

structure Memory where
  data : List Nat
deriving DecidableEq, Repr

namespace Memory

/-- `Memory::length`: `self.data.len() as u32`. -/
def length (m : Memory) : Nat := wrap32 m.data.length

/-- `Memory::check_range`: `address <= len && (address + length) <= len`,
where the sum is a `u32` addition (it wraps around `2^32`). -/
def check_range (m : Memory) (address length : Nat) : Bool :=
  decide (address ≤ m.length) && decide (wrap32 (address + length) ≤ m.length)

/-- `Memory::borrow_slice`: `&self.data[address..(address + length)]` behind
a `check_range` guard; the end index is the wrapped `u32` sum. -/
def borrow_slice (m : Memory) (address length : Nat) : Option (List Nat) :=
  if m.check_range address length then
    some ((m.data.take (wrap32 (address + length))).drop address)
  else
    none

/-- `Storage::read` (default method): asserts `1 <= size <= 4`, borrows the
slice and reads it little-endian, zero-padded into a `u32`. -/
def read (m : Memory) (address size : Nat) : Option Nat :=
  if size < 1 ∨ 4 < size then none
  else (m.borrow_slice address size).map readLE

/-- `Storage::write` (default method): asserts `1 <= size <= 4`, borrows the
slice mutably and writes the low `size` bytes of `value` little-endian.
`byteorder`'s `write_uint` panics when `value` needs more than `size`
bytes, so that case is `none` as well (it does not truncate). -/
def write (m : Memory) (address size value : Nat) : Option Memory :=
  if size < 1 ∨ 4 < size then none
  else if m.check_range address size then
    if 2 ^ (8 * size) ≤ value then none
    else some ⟨m.data.take address ++ leBytes size value ++
               m.data.drop (wrap32 (address + size))⟩
  else none

end Memory

/-- The spec's in-range condition: `address ≤ L ∧ address + size ≤ L` with
the sum computed over unbounded integers. -/
def inRangeSpec (address size L : Nat) : Prop := address ≤ L ∧ address + size ≤ L

instance (address size L : Nat) : Decidable (inRangeSpec address size L) := by
  unfold inRangeSpec; infer_instance

theorem splice_length (data chunk : List Nat) (a s : Nat)
    (hle : a + s ≤ data.length) (hc : chunk.length = s) :
    (data.take a ++ chunk ++ data.drop (a + s)).length = data.length := by
  simp only [List.length_append, List.length_take, List.length_drop, hc]
  omega

theorem splice_extract (data chunk : List Nat) (a s : Nat)
    (hle : a + s ≤ data.length) (hc : chunk.length = s) :
    ((data.take a ++ chunk ++ data.drop (a + s)).take (a + s)).drop a = chunk := by
  have hta : (data.take a).length = a := by
    rw [List.length_take]; omega
  rw [List.append_assoc, List.take_append_eq_append_take, hta,
      List.take_of_length_le (by rw [hta]; omega)]
  have hsub : a + s - a = s := by omega
  rw [hsub, List.take_append_eq_append_take,
      List.take_of_length_le (le_of_eq hc), hc, Nat.sub_self, List.take_zero,
      List.append_nil, List.drop_left' hta]

theorem pow256_eq (s : Nat) : (256 : Nat) ^ s = 2 ^ (8 * s) := by
  rw [pow_mul]; norm_num

theorem mask_eq_mod (v k : Nat) : v &&& (1 <<< k - 1) = v % 2 ^ k := by
  rw [Nat.one_shiftLeft, Nat.and_pow_two_sub_one_eq_mod]

/-- Claim C4 counterexample: with `Memory::new(4)`, the in-range write of
value 256 with size 1 does not succeed (byteorder's `write_uint` panics when
the value is not representable in `size` bytes), so the spec's
`write(addr,size,v); read(addr,size) == v & ((1<<(8*size))-1)` equation
fails for values exceeding the field: the write never happens. -/
theorem claim_C4_counterexample :
    inRangeSpec 0 1 (Memory.length ⟨[0, 0, 0, 0]⟩) ∧ (1 ≤ 1 ∧ (1 : Nat) ≤ 4) ∧
    Memory.write ⟨[0, 0, 0, 0]⟩ 0 1 256 = none := by decide

/-- Claim C4 (amended): for any plain storage, any in-range `(addr, size)`
with `size ∈ {1,2,3,4}`, and any value representable in `size` bytes
(`v < 2^(8*size)`), `write(addr,size,v)` succeeds and a subsequent
`read(addr,size)` returns `v & ((1 << (8*size)) - 1)` (which equals `v`).
For larger values the write panics instead of truncating. -/
theorem claim_C4_write_read (data : List Nat) (a s v : Nat)
    (hs1 : 1 ≤ s) (hs4 : s ≤ 4) (hL : data.length < 4294967296)
    (hin : inRangeSpec a s data.length) (hv : v < 2 ^ (8 * s)) :
    ∃ m', Memory.write ⟨data⟩ a s v = some m' ∧
      Memory.read m' a s = some (v &&& (1 <<< (8 * s) - 1)) := by
  obtain ⟨ha, has⟩ := hin
  have hw : wrap32 (a + s) = a + s := Nat.mod_eq_of_lt (by omega)
  have hlen : Memory.length ⟨data⟩ = data.length := by
    simp [Memory.length, wrap32, Nat.mod_eq_of_lt hL]
  have hcr : Memory.check_range ⟨data⟩ a s = true := by
    simp only [Memory.check_range, hlen, hw, Bool.and_eq_true, decide_eq_true_eq]
    exact ⟨ha, has⟩
  have hg : ¬(s < 1 ∨ 4 < s) := by omega
  have hnv : ¬(2 ^ (8 * s) ≤ v) := Nat.not_le.mpr hv
  have hlb : (leBytes s v).length = s := leBytes_length s v
  refine ⟨⟨data.take a ++ leBytes s v ++ data.drop (a + s)⟩, ?_, ?_⟩
  · simp [Memory.write, hcr, hnv, hw]
    omega
  · have hsplen : (data.take a ++ leBytes s v ++ data.drop (a + s)).length
        = data.length := splice_length data _ a s has hlb
    have hlen' : Memory.length ⟨data.take a ++ leBytes s v ++ data.drop (a + s)⟩
        = data.length := by
      simp only [Memory.length]
      rw [hsplen]
      exact Nat.mod_eq_of_lt hL
    have hcr' : Memory.check_range
        ⟨data.take a ++ leBytes s v ++ data.drop (a + s)⟩ a s = true := by
      simp only [Memory.check_range, hlen', hw, Bool.and_eq_true, decide_eq_true_eq]
      exact ⟨ha, has⟩
    unfold Memory.read Memory.borrow_slice
    rw [if_neg hg, if_pos hcr', hw, splice_extract data _ a s has hlb,
        show Option.map readLE (some (leBytes s v)) = some (readLE (leBytes s v))
          from rfl,
        readLE_leBytes, mask_eq_mod, pow256_eq]

/-- Claim C4 witness: the amended roundtrip at a concrete input. -/
theorem claim_C4_write_read_witness :
    ∃ m', Memory.write ⟨[0, 0, 0, 0]⟩ 0 1 7 = some m' ∧
      Memory.read m' 0 1 = some (7 &&& (1 <<< (8 * 1) - 1)) :=
  claim_C4_write_read [0, 0, 0, 0] 0 1 7 (by decide) (by decide) (by decide)
    (by decide) (by decide)

/-- Claim C5 counterexample: on a plain `Memory` of length 16,
`check_range(4, 4294967295)` returns `true` because the `u32` sum
`4 + 4294967295` wraps to 3, although the unbounded sum exceeds the length,
so the claimed equivalence with the overflow-free condition fails. -/
theorem claim_C5_counterexample :
    Memory.check_range ⟨List.replicate 16 0⟩ 4 4294967295 = true ∧
    ¬ inRangeSpec 4 4294967295 16 := by decide

/-- Claim C5 (amended): for a plain `Memory` whose length fits a `u32`, and
whenever `address + size` does not overflow a `u32`, `check_range` returns
true iff `address ≤ L ∧ address + size ≤ L`, and when it returns false every
access through `borrow_slice`, `read` or `write` fails. -/
theorem claim_C5_check_range (data : List Nat) (a s : Nat)
    (hL : data.length < 4294967296) (hov : a + s < 4294967296) :
    (Memory.check_range ⟨data⟩ a s = true ↔ inRangeSpec a s data.length) ∧
    (Memory.check_range ⟨data⟩ a s = false →
      Memory.borrow_slice ⟨data⟩ a s = none ∧
      Memory.read ⟨data⟩ a s = none ∧
      ∀ v, Memory.write ⟨data⟩ a s v = none) := by
  have hw : wrap32 (a + s) = a + s := Nat.mod_eq_of_lt hov
  have hlen : Memory.length ⟨data⟩ = data.length := by
    simp [Memory.length, wrap32, Nat.mod_eq_of_lt hL]
  constructor
  · simp only [Memory.check_range, hlen, hw, Bool.and_eq_true, decide_eq_true_eq]
    exact Iff.rfl
  · intro hfalse
    refine ⟨?_, ?_, ?_⟩
    · simp [Memory.borrow_slice, hfalse]
    · simp [Memory.read, Memory.borrow_slice, hfalse]
    · intro v
      simp [Memory.write, hfalse]

/-! ## Composite storage (`src/memory/composite.rs`).

A fragment is `(base address, length, payload)`; the payload stands for the
mounted child storage (`Box<dyn StorageMut>`), carried opaquely with type
`α`.  The registry (`HashMap<String, usize>`) maps keys to indices into the
fragment vector and is modelled as an association list whose keys are kept
unique by `mount`'s `contains_key` guard. -/

inductive MountError where
  | fragmentIntersection
  | keyAlreadyExists
deriving DecidableEq, Repr

structure CompositeMemory (α : Type) where
  fragments : List (Nat × Nat × α)
  registry : List (String × Nat)
deriving DecidableEq, Repr

/-- The loop of `CompositeMemory::find_mount_index`, with `i` the index of
the head of the remaining fragment list. -/
def findMountIndexAux {α : Type} :
    List (Nat × Nat × α) → Nat → Nat → Nat → Except MountError Nat
  | [], _, _, i => .ok i
  | (fragAddr, fragLen, _) :: rest, address, upperBound, i =>
    if fragAddr ≥ address then
      if upperBound > fragAddr then .error .fragmentIntersection else .ok i
    else if fragAddr + fragLen > address then .error .fragmentIntersection
    else findMountIndexAux rest address upperBound (i + 1)

namespace CompositeMemory

def empty {α : Type} : CompositeMemory α := ⟨[], []⟩

def find_mount_index {α : Type} (c : CompositeMemory α)
    (address upperBound : Nat) : Except MountError Nat :=
  findMountIndexAux c.fragments address upperBound 0

/-- `Vec::insert` at `index` (the index is at most the length here, so the
out-of-bounds panic cannot occur). -/
def vecInsert {β : Type} : Nat → β → List β → List β
  | 0, x, l => x :: l
  | _ + 1, x, [] => [x]
  | n + 1, x, y :: l => y :: vecInsert n x l

/-- `CompositeMemory::mount`: rejects duplicate keys, panics (modelled as
`none`) when `address + fragment.length()` overflows a `u32`, finds the
insertion index, inserts the fragment there and records `key → index` in
the registry.  Note that indices already in the registry are not adjusted
for the shift caused by the insertion. -/
def mount {α : Type} (c : CompositeMemory α) (address : Nat) (key : String)
    (fragLen : Nat) (payload : α) :
    Option (Except MountError (CompositeMemory α)) :=
  if (c.registry.lookup key).isSome then some (.error .keyAlreadyExists)
  else if 4294967296 ≤ address + fragLen then none
  else
    match c.find_mount_index address (address + fragLen) with
    | .error e => some (.error e)
    | .ok index =>
        some (.ok ⟨vecInsert index (address, fragLen, payload) c.fragments,
                   (key, index) :: c.registry⟩)

/-- `CompositeMemory::unmount`: removes the key's registry entry and removes
and returns the fragment at the recorded index (`none` also covers the
`Vec::remove` panic on a stale out-of-bounds index). -/
def unmount {α : Type} (c : CompositeMemory α) (key : String) :
    Option (α × CompositeMemory α) :=
  match c.registry.lookup key with
  | none => none
  | some i =>
    match c.fragments.get? i with
    | none => none
    | some (_, _, payload) =>
        some (payload, ⟨c.fragments.eraseIdx i,
                        c.registry.eraseP (fun kv => kv.1 == key)⟩)

end CompositeMemory

/-- Claim C2: evaluation at the failing input.  Mounting fragment `1` at 16
under key `"a"`, then fragment `2` at 0 under key `"b"` (both mounts
succeed), makes `unmount("a")` return fragment `2` — the child mounted
under `"b"` — because `mount` inserted the new fragment at index 0 without
updating the registry entry of `"a"`, which still says index 0.  The
leftover binding `"b"` then resolves to fragment `1`. -/
theorem claim_C2_code_bug :
    CompositeMemory.mount (CompositeMemory.empty (α := Nat)) 16 "a" 4 1
      = some (.ok ⟨[(16, 4, 1)], [("a", 0)]⟩) ∧
    CompositeMemory.mount (⟨[(16, 4, 1)], [("a", 0)]⟩ : CompositeMemory Nat)
        0 "b" 4 2
      = some (.ok ⟨[(0, 4, 2), (16, 4, 1)], [("b", 0), ("a", 0)]⟩) ∧
    (CompositeMemory.unmount
        (⟨[(0, 4, 2), (16, 4, 1)], [("b", 0), ("a", 0)]⟩ : CompositeMemory Nat)
        "a").map Prod.fst = some 2 ∧
    (CompositeMemory.unmount
        (⟨[(16, 4, 1)], [("b", 0)]⟩ : CompositeMemory Nat)
        "b").map Prod.fst = some 1 := ⟨rfl, rfl, rfl, rfl⟩

/-! ## Observed storage (`src/memory/io.rs`).

`IOMemory` wraps a byte buffer and an `IOHandler`; the handler's `can_write`
callback is modelled as a pure function of the buffer contents, address and
size (its Rust signature).  The returned `Bool` records whether `on_write`
was invoked (it is called after the commit, on the updated buffer). -/

/-- `IOMemory::write`: consults `can_write`; on `true` performs the
underlying buffer write (`?` propagates its failure, modelled by `none`)
and then invokes `on_write`; on `false` returns `Ok(())` without touching
the buffer. -/
def IOMemory.write (canWrite : List Nat → Nat → Nat → Bool)
    (memory : List Nat) (address size value : Nat) :
    Option (List Nat × Bool) :=
  if canWrite memory address size then
    match Memory.write ⟨memory⟩ address size value with
    | none => none
    | some m => some (m.data, true)
  else some (memory, false)

/-- Claim C7 counterexample: with an `admit` callback that always returns
true and an empty buffer, `write(0, 1, 5)` returns `Err` and invokes no
callback — the write is not committed and `notify` is not called, contrary
to the claim's unconditional "committed and notify is invoked". -/
theorem claim_C7_counterexample :
    (fun (_ : List Nat) (_ _ : Nat) => true) [] 0 1 = true ∧
    IOMemory.write (fun _ _ _ => true) [] 0 1 5 = none := by decide

/-- Claim C7 (amended): when `admit` returns false the write reports
success and leaves the buffer unchanged without notifying; when `admit`
returns true the underlying write is attempted: on success it is committed
and `notify` is invoked afterwards, and on failure (out-of-range access)
the error is propagated and `notify` is not invoked. -/
theorem claim_C7_write (canWrite : List Nat → Nat → Nat → Bool)
    (buf : List Nat) (a s v : Nat) :
    (canWrite buf a s = false →
      IOMemory.write canWrite buf a s v = some (buf, false)) ∧
    (canWrite buf a s = true →
      (∀ m', Memory.write ⟨buf⟩ a s v = some m' →
        IOMemory.write canWrite buf a s v = some (m'.data, true)) ∧
      (Memory.write ⟨buf⟩ a s v = none →
        IOMemory.write canWrite buf a s v = none)) := by
  refine ⟨fun h => ?_, fun h => ⟨fun m' hm => ?_, fun hm => ?_⟩⟩
  · simp [IOMemory.write, h]
  · simp [IOMemory.write, h, hm]
  · simp [IOMemory.write, h, hm]

/-- Claim C7 witness: the amended behaviour at concrete inputs covering the
suppressed write and the committed write. -/
theorem claim_C7_write_witness :
    IOMemory.write (fun _ _ _ => false) [0] 0 1 3 = some ([0], false) ∧
    IOMemory.write (fun _ _ _ => true) [0] 0 1 3 = some ([3], true) := by
  constructor
  · exact (claim_C7_write (fun _ _ _ => false) [0] 0 1 3).1 rfl
  · have h := ((claim_C7_write (fun _ _ _ => true) [0] 0 1 3).2 rfl).1
      ⟨[3]⟩ (by decide)
    simpa using h

/-! ## ISA model (`src/constants.rs`, `src/instructions.rs`). -/

namespace constants

def BYTE_BYTES : Nat := 1
def HALF_BYTES : Nat := 2
def WORD_BYTES : Nat := 4
def OPCODE_OFFSET : Nat := 26
def RD_OFFSET : Nat := 21
def RS1_OFFSET : Nat := 16
def RS2_OFFSET : Nat := 11
def OPCODE_MASK : Nat := 0xFC000000
def RD_MASK : Nat := 0x03E00000
def RS1_MASK : Nat := 0x001F0000
def RS2_MASK : Nat := 0x0000F800
def FUNCT_MASK : Nat := 0x3F
def IMMEDIATE_MASK : Nat := 0xFFFF
def ADDRESS_MASK : Nat := 0x03FFFFFF
def ADDRESS_SIGN_MASK : Nat := 0x02000000
def ADDRESS_EXTENSION : Nat := 0xFC000000
def LOW_BITS_MASK : Nat := 0x0000FFFF
def HIGH_BITS_MASK : Nat := 0xFFFF0000

end constants

/-- The opcode enumeration of `src/enums.rs`, in declaration order (the
ordinal is the 6-bit encoding used by `FromPrimitive` / `ToPrimitive`). -/
inductive Opcode where
  | NOP | ALU | HALT | CALL | COPY | LI | LHI | SLO | SHI
  | LB | LH | LW | SB | SH | SW
  | ADDI | SUBI | MULI | DIVI | ANDI | ORI | XORI | FLIP
  | SLLI | SRLI | SRAI
  | SEQI | SNEI | SLTI | SGTI | SLEI | SGEI
  | SLTUI | SGTUI | SLEUI | SGEUI
  | BEZ | BNZ | JMP | JL | JR | JLR
  | ITOF | FTOI | FLOP
deriving DecidableEq, Repr

/-- `FromPrimitive::from_u32` for `Opcode`. -/
def Opcode.fromU32 : Nat → Option Opcode
  | 0 => some .NOP | 1 => some .ALU | 2 => some .HALT | 3 => some .CALL
  | 4 => some .COPY | 5 => some .LI | 6 => some .LHI | 7 => some .SLO
  | 8 => some .SHI | 9 => some .LB | 10 => some .LH | 11 => some .LW
  | 12 => some .SB | 13 => some .SH | 14 => some .SW | 15 => some .ADDI
  | 16 => some .SUBI | 17 => some .MULI | 18 => some .DIVI | 19 => some .ANDI
  | 20 => some .ORI | 21 => some .XORI | 22 => some .FLIP | 23 => some .SLLI
  | 24 => some .SRLI | 25 => some .SRAI | 26 => some .SEQI | 27 => some .SNEI
  | 28 => some .SLTI | 29 => some .SGTI | 30 => some .SLEI | 31 => some .SGEI
  | 32 => some .SLTUI | 33 => some .SGTUI | 34 => some .SLEUI
  | 35 => some .SGEUI | 36 => some .BEZ | 37 => some .BNZ | 38 => some .JMP
  | 39 => some .JL | 40 => some .JR | 41 => some .JLR | 42 => some .ITOF
  | 43 => some .FTOI | 44 => some .FLOP | _ => none

/-- `ToPrimitive::to_u32` for `Opcode` (`enum_to_u32`). -/
def Opcode.toU32 : Opcode → Nat
  | .NOP => 0 | .ALU => 1 | .HALT => 2 | .CALL => 3 | .COPY => 4 | .LI => 5
  | .LHI => 6 | .SLO => 7 | .SHI => 8 | .LB => 9 | .LH => 10 | .LW => 11
  | .SB => 12 | .SH => 13 | .SW => 14 | .ADDI => 15 | .SUBI => 16
  | .MULI => 17 | .DIVI => 18 | .ANDI => 19 | .ORI => 20 | .XORI => 21
  | .FLIP => 22 | .SLLI => 23 | .SRLI => 24 | .SRAI => 25 | .SEQI => 26
  | .SNEI => 27 | .SLTI => 28 | .SGTI => 29 | .SLEI => 30 | .SGEI => 31
  | .SLTUI => 32 | .SGTUI => 33 | .SLEUI => 34 | .SGEUI => 35 | .BEZ => 36
  | .BNZ => 37 | .JMP => 38 | .JL => 39 | .JR => 40 | .JLR => 41
  | .ITOF => 42 | .FTOI => 43 | .FLOP => 44

/-- The ALU funct enumeration of `src/enums.rs`, in declaration order. -/
inductive AluFunct where
  | ADD | SUB | MUL | DIV | AND | OR | XOR | SLL | SRL | SRA
  | SEQ | SNE | SLT | SGT | SLE | SGE | SLTU | SGTU | SLEU | SGEU
deriving DecidableEq, Repr

/-- `FromPrimitive::from_u32` for `AluFunct`. -/
def AluFunct.fromU32 : Nat → Option AluFunct
  | 0 => some .ADD | 1 => some .SUB | 2 => some .MUL | 3 => some .DIV
  | 4 => some .AND | 5 => some .OR | 6 => some .XOR | 7 => some .SLL
  | 8 => some .SRL | 9 => some .SRA | 10 => some .SEQ | 11 => some .SNE
  | 12 => some .SLT | 13 => some .SGT | 14 => some .SLE | 15 => some .SGE
  | 16 => some .SLTU | 17 => some .SGTU | 18 => some .SLEU | 19 => some .SGEU
  | _ => none

/-- The FLOP funct enumeration of `src/enums.rs`. -/
inductive FlopFunct where
  | FADD | FSUB | FMUL | FDIV
deriving DecidableEq, Repr

/-- `FromPrimitive::from_u32` for `FlopFunct`. -/
def FlopFunct.fromU32 : Nat → Option FlopFunct
  | 0 => some .FADD | 1 => some .FSUB | 2 => some .FMUL | 3 => some .FDIV
  | _ => none

/-- `ExitCode` from `src/processor.rs`. -/
inductive ExitCode where
  | Halted | DivisionByZero | BadMemoryAccess | BadAlignment | BadJump
  | InvalidOpcode | BadProgramCounter
deriving DecidableEq, Repr

/-- `TickResult` from `src/processor/logic.rs`. -/
inductive TickResult where
  | Next
  | Jump (target : Nat) (link : Bool)
  | Stop (code : ExitCode)
deriving DecidableEq, Repr

/-- The storage the execution step works against
(`&mut dyn StorageMut`), reduced to the two operations the step uses:
`read(address, size)` and the `write_byte/half/word` family expressed as
`write(address, size, value)` with the value already truncated to `size`
bytes.  The state type `σ` is abstract. -/
structure StorageOps (σ : Type) where
  read : σ → Nat → Nat → Option Nat
  write : σ → Nat → Nat → Nat → Option σ

/-- The `f32` operations used by the step, as uninterpreted functions over
raw 32-bit patterns.  `ftoi` covers the whole `FTOI` data path (the
`is_finite` test and the saturating cast); `itof` maps an `i32` to the
pattern of its `f32` conversion. -/
structure FloatOps where
  fadd : Nat → Nat → Nat
  fsub : Nat → Nat → Nat
  fmul : Nat → Nat → Nat
  fdiv : Nat → Nat → Nat
  itof : Int → Nat
  ftoi : Nat → Nat

/-- Register file: 32 cells holding raw 32-bit patterns.  A read through
`Register::u()` / `i()` / `f()` yields a `u32`-sized pattern, hence the
reduction modulo `2^32` (the identity on well-formed files). -/
def regGet (regs : List Nat) (id : Nat) : Nat := wrap32 (regs.getD id 0)

/-- `write_i` / `write_u` / `write_f`: all three guard index 0 (the `ZERO`
register) and otherwise store the raw 32-bit pattern of the value. -/
def write_reg (regs : List Nat) (id : Nat) (v : Nat) : List Nat :=
  if id = 0 then regs else regs.set id v

/-- `mul` from `src/processor/logic.rs`: computes the 64-bit signed
product, stores its low 32 bits into register `id` and its high 32 bits
into `RM` (index 30) — both through `set_i` directly, without the index-0
guard of `write_i`. -/
def mulRegs (regs : List Nat) (id : Nat) (factor1 factor2 : Int) : List Nat :=
  let product := factor1 * factor2
  (regs.set id (wrap32I product)).set 30 (wrap32I (Int.fdiv product 4294967296))

/-- `div` from `src/processor/logic.rs`: `none` when the divisor is 0
(mapped to `Stop(DivisionByZero)` by the caller), otherwise writes the
truncated quotient into `id` and the remainder into `RM` (index 30), both
through `write_i`. -/
def divRegs (regs : List Nat) (id : Nat) (dividend divisor : Int) :
    Option (List Nat) :=
  if divisor = 0 then none
  else some (write_reg (write_reg regs id (wrap32I (Int.tdiv dividend divisor)))
              30 (wrap32I (Int.tmod dividend divisor)))

/-- `set_if`: writes 1 or 0 through `write_u`. -/
def setIfRegs (regs : List Nat) (id : Nat) (condition : Bool) : List Nat :=
  write_reg regs id (if condition then 1 else 0)

/-- `rd` field extraction: `(instruction & RD_MASK) >> RD_OFFSET`. -/
def rdField (instruction : Nat) : Nat :=
  (instruction &&& constants.RD_MASK) >>> constants.RD_OFFSET

/-- `rs1` field extraction. -/
def rs1Field (instruction : Nat) : Nat :=
  (instruction &&& constants.RS1_MASK) >>> constants.RS1_OFFSET

/-- `rs2` field extraction. -/
def rs2Field (instruction : Nat) : Nat :=
  (instruction &&& constants.RS2_MASK) >>> constants.RS2_OFFSET

/-- Opcode field extraction. -/
def opField (instruction : Nat) : Nat :=
  (instruction &&& constants.OPCODE_MASK) >>> constants.OPCODE_OFFSET

/-- Funct field extraction (offset 0). -/
def functField (instruction : Nat) : Nat := instruction &&& constants.FUNCT_MASK

/-- The immediate as a signed 16-bit value (`imm_i16 as i32`). -/
def immIField (instruction : Nat) : Int :=
  toI16 (instruction &&& constants.IMMEDIATE_MASK)

/-- The immediate as an unsigned 16-bit value. -/
def immUField (instruction : Nat) : Nat :=
  instruction &&& constants.IMMEDIATE_MASK

/-- The sign-extended address field of a J-format instruction
(`ADDRESS_SIGN_MASK` test, `ADDRESS_EXTENSION` or-in). -/
def addressField (instruction : Nat) : Nat :=
  let address := instruction &&& constants.ADDRESS_MASK
  if address &&& constants.ADDRESS_SIGN_MASK ≠ 0 then
    address ||| constants.ADDRESS_EXTENSION
  else address

/-- The body of `logic::tick` after a successful opcode decode: field
extraction followed by the big dispatch `match`.  Wrapping `u32`/`i32`
arithmetic is `wrap32`/`wrap32I`; bitwise operations act on the raw 32-bit
patterns (which coincides with `i32` bitwise operations); shift amounts are
masked modulo 32 as `Wrapping`'s shift operators do. -/
def logic.tickDispatch {σ : Type} (S : StorageOps σ) (F : FloatOps)
    (regs : List Nat) (storage : σ) (instruction : Nat)
    (program_counter : Nat) (op : Opcode) : TickResult × List Nat × σ :=
  let rdid := rdField instruction
  let rs1id := rs1Field instruction
  let rs2id := rs2Field instruction
  let rdu := regGet regs rdid
  let rs1u := regGet regs rs1id
  let rs2u := regGet regs rs2id
  let rs1i := toI32 rs1u
  let rs2i := toI32 rs2u
  let rs1f := rs1u
  let rs2f := rs2u
  let imm_i := immIField instruction
  let imm_u := immUField instruction
  let imm_u_ex := wrap32I imm_i
  let address := addressField instruction
  match op with
  | .NOP => (.Next, regs, storage)
  | .ALU =>
    match AluFunct.fromU32 (functField instruction) with
    | none => (.Stop .InvalidOpcode, regs, storage)
    | some .ADD => (.Next, write_reg regs rdid (wrap32I (rs1i + rs2i)), storage)
    | some .SUB => (.Next, write_reg regs rdid (wrap32I (rs1i - rs2i)), storage)
    | some .MUL => (.Next, mulRegs regs rdid rs1i rs2i, storage)
    | some .DIV =>
      match divRegs regs rdid rs1i rs2i with
      | none => (.Stop .DivisionByZero, regs, storage)
      | some regs2 => (.Next, regs2, storage)
    | some .AND => (.Next, write_reg regs rdid (rs1u &&& rs2u), storage)
    | some .OR => (.Next, write_reg regs rdid (rs1u ||| rs2u), storage)
    | some .XOR => (.Next, write_reg regs rdid (rs1u ^^^ rs2u), storage)
    | some .SLL =>
        (.Next, write_reg regs rdid (wrap32 (rs1u <<< (rs2u % 32))), storage)
    | some .SRL => (.Next, write_reg regs rdid (rs1u >>> (rs2u % 32)), storage)
    | some .SRA =>
        (.Next, write_reg regs rdid
          (wrap32I (Int.fdiv rs1i ((2 : Int) ^ (rs2u % 32)))), storage)
    | some .SEQ => (.Next, setIfRegs regs rdid (decide (rs1i = rs2i)), storage)
    | some .SNE => (.Next, setIfRegs regs rdid (decide (rs1i ≠ rs2i)), storage)
    | some .SLT => (.Next, setIfRegs regs rdid (decide (rs1i < rs2i)), storage)
    | some .SGT => (.Next, setIfRegs regs rdid (decide (rs1i > rs2i)), storage)
    | some .SLE => (.Next, setIfRegs regs rdid (decide (rs1i ≤ rs2i)), storage)
    | some .SGE => (.Next, setIfRegs regs rdid (decide (rs1i ≥ rs2i)), storage)
    | some .SLTU => (.Next, setIfRegs regs rdid (decide (rs1u < rs2u)), storage)
    | some .SGTU => (.Next, setIfRegs regs rdid (decide (rs1u > rs2u)), storage)
    | some .SLEU => (.Next, setIfRegs regs rdid (decide (rs1u ≤ rs2u)), storage)
    | some .SGEU => (.Next, setIfRegs regs rdid (decide (rs1u ≥ rs2u)), storage)
  | .HALT => (.Stop .Halted, regs, storage)
  | .CALL => (.Next, regs, storage)
  | .COPY => (.Next, write_reg regs rdid (wrap32I rs1i), storage)
  | .LI => (.Next, write_reg regs rdid (wrap32I imm_i), storage)
  | .LHI => (.Next, write_reg regs rdid (wrap32I (imm_i * 65536)), storage)
  | .SLO =>
      (.Next, write_reg regs rdid
        (imm_u ||| (rdu &&& constants.HIGH_BITS_MASK)), storage)
  | .SHI =>
      (.Next, write_reg regs rdid
        ((imm_u <<< 16) ||| (rdu &&& constants.LOW_BITS_MASK)), storage)
  | .LB =>
    match S.read storage (wrap32 (rs1u + imm_u_ex)) constants.BYTE_BYTES with
    | some v => (.Next, write_reg regs rdid (wrap32 v), storage)
    | none => (.Stop .BadMemoryAccess, regs, storage)
  | .LH =>
    match S.read storage (wrap32 (rs1u + imm_u_ex)) constants.HALF_BYTES with
    | some v => (.Next, write_reg regs rdid (wrap32 v), storage)
    | none => (.Stop .BadMemoryAccess, regs, storage)
  | .LW =>
    match S.read storage (wrap32 (rs1u + imm_u_ex)) constants.WORD_BYTES with
    | some v => (.Next, write_reg regs rdid (wrap32 v), storage)
    | none => (.Stop .BadMemoryAccess, regs, storage)
  | .SB =>
    match S.write storage (wrap32 (rs1u + imm_u_ex)) constants.BYTE_BYTES
        (rdu % 256) with
    | some storage2 => (.Next, regs, storage2)
    | none => (.Stop .BadMemoryAccess, regs, storage)
  | .SH =>
    match S.write storage (wrap32 (rs1u + imm_u_ex)) constants.HALF_BYTES
        (rdu % 65536) with
    | some storage2 => (.Next, regs, storage2)
    | none => (.Stop .BadMemoryAccess, regs, storage)
  | .SW =>
    match S.write storage (wrap32 (rs1u + imm_u_ex)) constants.WORD_BYTES
        rdu with
    | some storage2 => (.Next, regs, storage2)
    | none => (.Stop .BadMemoryAccess, regs, storage)
  | .ADDI => (.Next, write_reg regs rdid (wrap32I (rs1i + imm_i)), storage)
  | .SUBI => (.Next, write_reg regs rdid (wrap32I (rs1i - imm_i)), storage)
  | .MULI => (.Next, mulRegs regs rdid rs1i imm_i, storage)
  | .DIVI =>
    match divRegs regs rdid rs1i imm_i with
    | none => (.Stop .DivisionByZero, regs, storage)
    | some regs2 => (.Next, regs2, storage)
  | .ANDI => (.Next, write_reg regs rdid (rs1u &&& imm_u_ex), storage)
  | .ORI => (.Next, write_reg regs rdid (rs1u ||| imm_u_ex), storage)
  | .XORI => (.Next, write_reg regs rdid (rs1u ^^^ imm_u_ex), storage)
  | .FLIP => (.Next, write_reg regs rdid (wrap32I (-rs1i - 1)), storage)
  | .SLLI =>
      (.Next, write_reg regs rdid (wrap32 (rs1u <<< (imm_u_ex % 32))), storage)
  | .SRLI => (.Next, write_reg regs rdid (rs1u >>> (imm_u_ex % 32)), storage)
  | .SRAI =>
      (.Next, write_reg regs rdid
        (wrap32I (Int.fdiv rs1i ((2 : Int) ^ (imm_u_ex % 32)))), storage)
  | .SEQI => (.Next, setIfRegs regs rdid (decide (rs1i = imm_i)), storage)
  | .SNEI => (.Next, setIfRegs regs rdid (decide (rs1i ≠ imm_i)), storage)
  | .SLTI => (.Next, setIfRegs regs rdid (decide (rs1i < imm_i)), storage)
  | .SGTI => (.Next, setIfRegs regs rdid (decide (rs1i > imm_i)), storage)
  | .SLEI => (.Next, setIfRegs regs rdid (decide (rs1i ≤ imm_i)), storage)
  | .SGEI => (.Next, setIfRegs regs rdid (decide (rs1i ≥ imm_i)), storage)
  | .SLTUI => (.Next, setIfRegs regs rdid (decide (rs1u < imm_u)), storage)
  | .SGTUI => (.Next, setIfRegs regs rdid (decide (rs1u > imm_u)), storage)
  | .SLEUI => (.Next, setIfRegs regs rdid (decide (rs1u ≤ imm_u)), storage)
  | .SGEUI => (.Next, setIfRegs regs rdid (decide (rs1u ≥ imm_u)), storage)
  | .BEZ =>
      if rs1i = 0 then
        (.Jump (wrap32 (program_counter + imm_u_ex)) false, regs, storage)
      else (.Next, regs, storage)
  | .BNZ =>
      if rs1i ≠ 0 then
        (.Jump (wrap32 (program_counter + imm_u_ex)) false, regs, storage)
      else (.Next, regs, storage)
  | .JMP => (.Jump (wrap32 (program_counter + address)) false, regs, storage)
  | .JL => (.Jump (wrap32 (program_counter + address)) true, regs, storage)
  | .JR => (.Jump rs1u false, regs, storage)
  | .JLR => (.Jump rs1u true, regs, storage)
  | .ITOF => (.Next, write_reg regs rdid (F.itof rs1i), storage)
  | .FTOI => (.Next, write_reg regs rdid (F.ftoi rs1f), storage)
  | .FLOP =>
    match FlopFunct.fromU32 (functField instruction) with
    | none => (.Stop .InvalidOpcode, regs, storage)
    | some .FADD => (.Next, write_reg regs rdid (F.fadd rs1f rs2f), storage)
    | some .FSUB => (.Next, write_reg regs rdid (F.fsub rs1f rs2f), storage)
    | some .FMUL => (.Next, write_reg regs rdid (F.fmul rs1f rs2f), storage)
    | some .FDIV => (.Next, write_reg regs rdid (F.fdiv rs1f rs2f), storage)

/-- `logic::tick` from `src/processor/logic.rs`: decode the opcode,
returning `Stop(InvalidOpcode)` for unknown values, else dispatch. -/
def logic.tick {σ : Type} (S : StorageOps σ) (F : FloatOps)
    (regs : List Nat) (storage : σ) (instruction program_counter : Nat) :
    TickResult × List Nat × σ :=
  match Opcode.fromU32 (opField instruction) with
  | none => (.Stop .InvalidOpcode, regs, storage)
  | some op =>
      logic.tickDispatch S F regs storage instruction program_counter op

/-! ## Processor shell (`src/processor.rs`). -/

/-- `get_next_pc`: wrapping add of `WORD_BYTES`; falls back to 0 when the
result is not strictly below the instruction length. -/
def get_next_pc (pc instr_len : Nat) : Nat :=
  let result := wrap32 (pc + constants.WORD_BYTES)
  if result < instr_len then result else 0

structure Processor where
  registers : List Nat
  program_counter : Nat
  state : Option ExitCode
deriving DecidableEq, Repr

/-- `Processor::new` / `Default::default`, which is also the result of
`reset`: zero registers, zero program counter, no terminal state. -/
def Processor.new : Processor := ⟨List.replicate 32 0, 0, none⟩

/-- `Endian::read_u32` over the instruction bytes `[pc, pc + 4)`. -/
def readWordLE (instructions : List Nat) (pc : Nat) : Nat :=
  instructions.getD pc 0 + 256 * instructions.getD (pc + 1) 0 +
  65536 * instructions.getD (pc + 2) 0 +
  16777216 * instructions.getD (pc + 3) 0

/-- `Processor::get_new_state`, with the register and program-counter
mutations made explicit: returns the updated processor (its `state` is the
function's `Option<ExitCode>` result) and the updated storage. -/
def Processor.getNewState {σ : Type} (S : StorageOps σ) (F : FloatOps)
    (p : Processor) (instructions : List Nat) (storage : σ) :
    Processor × σ :=
  let instr_len := wrap32 instructions.length
  if instr_len < wrap32 (p.program_counter + constants.WORD_BYTES) then
    ({ p with state := some .BadProgramCounter }, storage)
  else
    match logic.tick S F p.registers storage
        (readWordLE instructions p.program_counter) p.program_counter with
    | (.Next, regs2, storage2) =>
        ({ registers := regs2,
           program_counter := get_next_pc p.program_counter instr_len,
           state := none }, storage2)
    | (.Jump target link, regs2, storage2) =>
        if target % constants.WORD_BYTES ≠ 0 then
          ({ p with registers := regs2, state := some .BadAlignment },
           storage2)
        else if instr_len ≤ target then
          ({ p with registers := regs2, state := some .BadJump }, storage2)
        else
          ({ registers :=
               if link then
                 regs2.set 31 (get_next_pc p.program_counter instr_len)
               else regs2,
             program_counter := target, state := none }, storage2)
    | (.Stop code, regs2, storage2) =>
        ({ p with registers := regs2, state := some code }, storage2)

/-- `Processor::tick`: returns unchanged when already terminated, else
computes the new state. -/
def Processor.tick {σ : Type} (S : StorageOps σ) (F : FloatOps)
    (p : Processor) (instructions : List Nat) (storage : σ) :
    Processor × σ :=
  if p.state.isSome then (p, storage)
  else p.getNewState S F instructions storage

/-- A storage with no readable or writable locations (every access fails);
used to instantiate theorems at concrete inputs. -/
def unitOps : StorageOps Unit :=
  ⟨fun _ _ _ => none, fun _ _ _ _ => none⟩

/-- A trivial interpretation of the opaque float operations. -/
def zeroFloat : FloatOps :=
  ⟨fun _ _ => 0, fun _ _ => 0, fun _ _ => 0, fun _ _ => 0, fun _ => 0,
   fun _ => 0⟩

/-- Claim C1: evaluation at the failing input.  The four instruction bytes
decode (little-endian) to the word 67717122, which is
`MUL ZERO, T1, T1` (opcode ALU, funct MUL, rd = ZERO = 0,
rs1 = rs2 = T1 = index 9).  Starting with `T1 = 1`, the tick completes
normally (no terminal state) yet afterwards the `ZERO` register reads 1,
not 0: `mul` stores the low half of the product through `set_i` directly,
bypassing the index-0 guard that `write_i`/`write_u`/`write_f` apply. -/
theorem claim_C1_code_bug :
    (Processor.tick unitOps zeroFloat
        ⟨(List.replicate 32 0).set 9 1, 0, none⟩ [2, 72, 9, 4] ()).1.state
      = none ∧
    regGet (Processor.tick unitOps zeroFloat
        ⟨(List.replicate 32 0).set 9 1, 0, none⟩ [2, 72, 9, 4] ()).1.registers
      0 = 1 := by decide

theorem write_reg_length (regs : List Nat) (id v : Nat) :
    (write_reg regs id v).length = regs.length := by
  unfold write_reg; split <;> simp

theorem regGet_write_reg_self (regs : List Nat) (id v : Nat)
    (h0 : id ≠ 0) (hlt : id < regs.length) :
    regGet (write_reg regs id v) id = wrap32 v := by
  unfold write_reg regGet
  rw [if_neg h0]
  simp [List.getD_eq_getElem?_getD, List.getElem?_set_self hlt]

theorem regGet_write_reg_ne (regs : List Nat) (id v j : Nat) (hne : j ≠ id) :
    regGet (write_reg regs id v) j = regGet regs j := by
  unfold write_reg regGet
  split
  · rfl
  · simp [List.getD_eq_getElem?_getD, List.getElem?_set_ne (Ne.symm hne)]

theorem shiftRight_and_le (w m k : Nat) : (w &&& m) >>> k ≤ m >>> k := by
  rw [Nat.shiftRight_eq_div_pow, Nat.shiftRight_eq_div_pow]
  exact Nat.div_le_div_right Nat.and_le_right

theorem rdField_lt (w : Nat) : rdField w < 32 :=
  lt_of_le_of_lt (shiftRight_and_le w constants.RD_MASK constants.RD_OFFSET)
    (by decide)

theorem wrap32I_lt (i : Int) : wrap32I i < 4294967296 := by
  unfold wrap32I
  have h1 : 0 ≤ i % 4294967296 := Int.emod_nonneg i (by norm_num)
  have h2 : i % 4294967296 < 4294967296 := Int.emod_lt_of_pos i (by norm_num)
  omega

theorem wrap32_wrap32I (i : Int) : wrap32 (wrap32I i) = wrap32I i :=
  Nat.mod_eq_of_lt (wrap32I_lt i)

/-- The observable effect of `div`'s two `write_i` calls: `RM` (index 30)
holds the remainder, `rd` (when distinct from `ZERO` and `RM`) holds the
quotient, and every other register is untouched. -/
theorem div_write_props (regs : List Nat) (rd : Nat) (q r : Int)
    (hlen : regs.length = 32) (hrd : rd < 32) :
    regGet (write_reg (write_reg regs rd (wrap32I q)) 30 (wrap32I r)) 30
      = wrap32I r ∧
    (rd ≠ 0 → rd ≠ 30 →
      regGet (write_reg (write_reg regs rd (wrap32I q)) 30 (wrap32I r)) rd
        = wrap32I q) ∧
    (∀ j, j ≠ rd → j ≠ 30 →
      regGet (write_reg (write_reg regs rd (wrap32I q)) 30 (wrap32I r)) j
        = regGet regs j) := by
  have hlen1 : (write_reg regs rd (wrap32I q)).length = 32 := by
    rw [write_reg_length, hlen]
  refine ⟨?_, fun h0 h30 => ?_, fun j hjrd hj30 => ?_⟩
  · rw [regGet_write_reg_self _ 30 _ (by decide) (by omega), wrap32_wrap32I]
  · rw [regGet_write_reg_ne _ 30 _ rd h30,
        regGet_write_reg_self _ rd _ h0 (by omega), wrap32_wrap32I]
  · rw [regGet_write_reg_ne _ 30 _ j hj30, regGet_write_reg_ne _ rd _ j hjrd]

theorem tick_DIVI_eq {σ : Type} (S : StorageOps σ) (F : FloatOps)
    (regs : List Nat) (storage : σ) (w pc : Nat)
    (hop : Opcode.fromU32 (opField w) = some .DIVI) :
    logic.tick S F regs storage w pc =
      match divRegs regs (rdField w) (toI32 (regGet regs (rs1Field w)))
          (immIField w) with
      | none => (.Stop .DivisionByZero, regs, storage)
      | some regs2 => (.Next, regs2, storage) := by
  unfold logic.tick
  rw [hop]
  rfl

theorem tick_ALU_DIV_eq {σ : Type} (S : StorageOps σ) (F : FloatOps)
    (regs : List Nat) (storage : σ) (w pc : Nat)
    (hop : Opcode.fromU32 (opField w) = some .ALU)
    (hf : AluFunct.fromU32 (functField w) = some .DIV) :
    logic.tick S F regs storage w pc =
      match divRegs regs (rdField w) (toI32 (regGet regs (rs1Field w)))
          (toI32 (regGet regs (rs2Field w))) with
      | none => (.Stop .DivisionByZero, regs, storage)
      | some regs2 => (.Next, regs2, storage) := by
  unfold logic.tick
  rw [hop]
  simp only [logic.tickDispatch]
  rw [hf]

/-- Claim C3: division semantics of `DIVI` and of `ALU`/`DIV`.  With
divisor 0 the step returns `Stop(DivisionByZero)` and both the register
file and the storage are returned unchanged (in particular `rd` and `RM`).
With a non-zero divisor the step yields `Next`, `RM` (index 30) receives
the signed remainder, `rd` (when it is neither `ZERO`, whose writes are
suppressed, nor `RM` itself, which the remainder write overwrites)
receives the signed quotient, and all other registers are unchanged. -/
theorem claim_C3_div {σ : Type} (S : StorageOps σ) (F : FloatOps)
    (regs : List Nat) (storage : σ) (w pc : Nat) (hlen : regs.length = 32) :
    (Opcode.fromU32 (opField w) = some .DIVI →
      (immIField w = 0 →
        logic.tick S F regs storage w pc
          = (.Stop .DivisionByZero, regs, storage)) ∧
      (immIField w ≠ 0 →
        (logic.tick S F regs storage w pc).1 = .Next ∧
        (logic.tick S F regs storage w pc).2.2 = storage ∧
        regGet (logic.tick S F regs storage w pc).2.1 30 =
          wrap32I (Int.tmod (toI32 (regGet regs (rs1Field w))) (immIField w)) ∧
        (rdField w ≠ 0 → rdField w ≠ 30 →
          regGet (logic.tick S F regs storage w pc).2.1 (rdField w) =
            wrap32I (Int.tdiv (toI32 (regGet regs (rs1Field w)))
              (immIField w))) ∧
        (∀ j, j ≠ rdField w → j ≠ 30 →
          regGet (logic.tick S F regs storage w pc).2.1 j = regGet regs j))) ∧
    (Opcode.fromU32 (opField w) = some .ALU →
      AluFunct.fromU32 (functField w) = some .DIV →
      (toI32 (regGet regs (rs2Field w)) = 0 →
        logic.tick S F regs storage w pc
          = (.Stop .DivisionByZero, regs, storage)) ∧
      (toI32 (regGet regs (rs2Field w)) ≠ 0 →
        (logic.tick S F regs storage w pc).1 = .Next ∧
        (logic.tick S F regs storage w pc).2.2 = storage ∧
        regGet (logic.tick S F regs storage w pc).2.1 30 =
          wrap32I (Int.tmod (toI32 (regGet regs (rs1Field w)))
            (toI32 (regGet regs (rs2Field w)))) ∧
        (rdField w ≠ 0 → rdField w ≠ 30 →
          regGet (logic.tick S F regs storage w pc).2.1 (rdField w) =
            wrap32I (Int.tdiv (toI32 (regGet regs (rs1Field w)))
              (toI32 (regGet regs (rs2Field w))))) ∧
        (∀ j, j ≠ rdField w → j ≠ 30 →
          regGet (logic.tick S F regs storage w pc).2.1 j = regGet regs j))) := by
  constructor
  · intro hop
    have heq := tick_DIVI_eq S F regs storage w pc hop
    constructor
    · intro h0
      rw [heq]
      simp [divRegs, h0]
    · intro hne
      rw [heq]
      simp only [divRegs, if_neg hne]
      obtain ⟨h30, hrdp, hoth⟩ := div_write_props regs (rdField w)
        (Int.tdiv (toI32 (regGet regs (rs1Field w))) (immIField w))
        (Int.tmod (toI32 (regGet regs (rs1Field w))) (immIField w))
        hlen (rdField_lt w)
      exact ⟨trivial, trivial, h30, hrdp, hoth⟩
  · intro hop hf
    have heq := tick_ALU_DIV_eq S F regs storage w pc hop hf
    constructor
    · intro h0
      rw [heq]
      simp [divRegs, h0]
    · intro hne
      rw [heq]
      simp only [divRegs, if_neg hne]
      obtain ⟨h30, hrdp, hoth⟩ := div_write_props regs (rdField w)
        (Int.tdiv (toI32 (regGet regs (rs1Field w)))
          (toI32 (regGet regs (rs2Field w))))
        (Int.tmod (toI32 (regGet regs (rs1Field w)))
          (toI32 (regGet regs (rs2Field w))))
        hlen (rdField_lt w)
      exact ⟨trivial, trivial, h30, hrdp, hoth⟩

/-- Claim C3 witness: the division semantics at concrete inputs —
`DIVI T0, T1, 0` with `T1 = 2072` stops with `DivisionByZero` and leaves
the registers untouched; `DIVI T0, T1, 2` puts 1036 into `T0`; and
`DIV T0, T1, T2` with `T2 = 4` puts 518 into `T0`. -/
theorem claim_C3_div_witness :
    (logic.tick unitOps zeroFloat ((List.replicate 32 0).set 9 2072) ()
        1225326592 0
      = (.Stop .DivisionByZero, (List.replicate 32 0).set 9 2072, ())) ∧
    regGet (logic.tick unitOps zeroFloat ((List.replicate 32 0).set 9 2072) ()
        1225326594 0).2.1 8 = 1036 ∧
    regGet (logic.tick unitOps zeroFloat
        (((List.replicate 32 0).set 9 2072).set 10 4) () 84496387 0).2.1 8
      = 518 := by
  refine ⟨?_, ?_, ?_⟩
  · exact ((claim_C3_div unitOps zeroFloat ((List.replicate 32 0).set 9 2072)
      () 1225326592 0 (by decide)).1 (by decide)).1 (by decide)
  · have h := (((claim_C3_div unitOps zeroFloat
      ((List.replicate 32 0).set 9 2072) () 1225326594 0 (by decide)).1
      (by decide)).2 (by decide)).2.2.2.1 (by decide) (by decide)
    exact h.trans (by decide)
  · have h := (((claim_C3_div unitOps zeroFloat
      (((List.replicate 32 0).set 9 2072).set 10 4) () 84496387 0
      (by decide)).2 (by decide) (by decide)).2 (by decide)).2.2.2.1
      (by decide) (by decide)
    exact h.trans (by decide)

/-- Claim C5 witness: the amended equivalence at a concrete input. -/
theorem claim_C5_check_range_witness :
    (Memory.check_range ⟨[0, 0]⟩ 0 1 = true ↔ inRangeSpec 0 1 [0, 0].length) ∧
    (Memory.check_range ⟨[0, 0]⟩ 0 1 = false →
      Memory.borrow_slice ⟨[0, 0]⟩ 0 1 = none ∧
      Memory.read ⟨[0, 0]⟩ 0 1 = none ∧
      ∀ v, Memory.write ⟨[0, 0]⟩ 0 1 v = none) :=
  claim_C5_check_range [0, 0] 0 1 (by decide) (by decide)

/-- Claim C6: when the step yields `Jump(target, link)`, misalignment
(`target mod WORD_BYTES ≠ 0`) terminates the tick with `BadAlignment`
before the range check, and only an aligned target is compared against the
instruction length to terminate with `BadJump`; a target that is both
misaligned and out of range therefore yields `BadAlignment`.  On either
failure the resulting register file is exactly the one the step returned:
`RA` is not written even when `link` is set. -/
theorem claim_C6_jump {σ : Type} (S : StorageOps σ) (F : FloatOps)
    (p : Processor) (instructions : List Nat) (storage : σ)
    (target : Nat) (link : Bool) (regs2 : List Nat) (storage2 : σ)
    (hrun : p.state = none)
    (hgate : ¬ (wrap32 instructions.length
      < wrap32 (p.program_counter + constants.WORD_BYTES)))
    (htick : logic.tick S F p.registers storage
        (readWordLE instructions p.program_counter) p.program_counter
      = (.Jump target link, regs2, storage2)) :
    (target % constants.WORD_BYTES ≠ 0 →
      Processor.tick S F p instructions storage
        = ({ p with registers := regs2, state := some .BadAlignment },
           storage2)) ∧
    (target % constants.WORD_BYTES = 0 →
      wrap32 instructions.length ≤ target →
      Processor.tick S F p instructions storage
        = ({ p with registers := regs2, state := some .BadJump },
           storage2)) := by
  have hns : p.state.isSome = false := by rw [hrun]; rfl
  constructor
  · intro hmis
    simp only [Processor.tick, hns, Bool.false_eq_true, if_false,
      Processor.getNewState, if_neg hgate, htick]
    rw [if_pos hmis]
  · intro hal hout
    simp only [Processor.tick, hns, Bool.false_eq_true, if_false,
      Processor.getNewState, if_neg hgate, htick]
    rw [if_neg (by simp [hal]), if_pos hout]

/-- Claim C6 witness: `JMP +2` from a fresh processor (misaligned target 2)
terminates with `BadAlignment`; `JMP +4` with a four-byte instruction
buffer (aligned target 4, out of range) terminates with `BadJump`. -/
theorem claim_C6_jump_witness :
    Processor.tick unitOps zeroFloat Processor.new [2, 0, 0, 152] ()
      = (⟨List.replicate 32 0, 0, some .BadAlignment⟩, ()) ∧
    Processor.tick unitOps zeroFloat Processor.new [4, 0, 0, 152] ()
      = (⟨List.replicate 32 0, 0, some .BadJump⟩, ()) := by
  constructor
  · exact (claim_C6_jump unitOps zeroFloat Processor.new [2, 0, 0, 152] ()
      2 false (List.replicate 32 0) () rfl (by decide) (by decide)).1
      (by decide)
  · exact (claim_C6_jump unitOps zeroFloat Processor.new [4, 0, 0, 152] ()
      4 false (List.replicate 32 0) () rfl (by decide) (by decide)).2
      (by decide) (by decide)

/-- Claim C8: when the step yields `Next`, the tick sets the program
counter to `pc + WORD_BYTES`, except that when `pc + WORD_BYTES` is at
least the instruction length the program counter becomes 0 (wrap), and no
terminal state is set.  The program counter is assumed word-aligned (the
reachable-state invariant) and the lengths `u32`-sized. -/
theorem claim_C8_next {σ : Type} (S : StorageOps σ) (F : FloatOps)
    (p : Processor) (instructions : List Nat) (storage : σ)
    (regs2 : List Nat) (storage2 : σ)
    (hrun : p.state = none)
    (hgate : ¬ (wrap32 instructions.length
      < wrap32 (p.program_counter + constants.WORD_BYTES)))
    (htick : logic.tick S F p.registers storage
        (readWordLE instructions p.program_counter) p.program_counter
      = (.Next, regs2, storage2))
    (hpc4 : p.program_counter % constants.WORD_BYTES = 0)
    (hpclt : p.program_counter < 4294967296)
    (hilen : instructions.length < 4294967296) :
    Processor.tick S F p instructions storage
      = ({ registers := regs2,
           program_counter :=
             if instructions.length ≤ p.program_counter + constants.WORD_BYTES
             then 0 else p.program_counter + constants.WORD_BYTES,
           state := none }, storage2) := by
  have hns : p.state.isSome = false := by rw [hrun]; rfl
  simp only [Processor.tick, hns, Bool.false_eq_true, if_false,
    Processor.getNewState, if_neg hgate, htick]
  have hlen : wrap32 instructions.length = instructions.length :=
    Nat.mod_eq_of_lt hilen
  have hpc : get_next_pc p.program_counter (wrap32 instructions.length)
      = if instructions.length ≤ p.program_counter + constants.WORD_BYTES
        then 0 else p.program_counter + constants.WORD_BYTES := by
    unfold get_next_pc
    rw [hlen]
    simp only [constants.WORD_BYTES] at hpc4 ⊢
    by_cases hov : p.program_counter + 4 < 4294967296
    · rw [show wrap32 (p.program_counter + 4) = p.program_counter + 4
        from Nat.mod_eq_of_lt hov]
      rcases Nat.lt_or_ge (p.program_counter + 4) instructions.length
        with hlt | hge
      · rw [if_pos hlt, if_neg (by omega)]
      · rw [if_neg (by omega), if_pos (by omega)]
    · have hexact : p.program_counter + 4 = 4294967296 := by omega
      rw [show wrap32 (p.program_counter + 4) = 0 by
        rw [hexact]; rfl]
      have hle : instructions.length ≤ p.program_counter + 4 := by omega
      rw [if_pos hle]
      split <;> rfl
  rw [hpc]

/-- Claim C8 witness: a `NOP` at pc 0 of an eight-byte buffer advances the
program counter to 4 without setting a terminal state. -/
theorem claim_C8_next_witness :
    Processor.tick unitOps zeroFloat Processor.new (List.replicate 8 0) ()
      = (⟨List.replicate 32 0, 4, none⟩, ()) := by
  have h := claim_C8_next unitOps zeroFloat Processor.new
    (List.replicate 8 0) () (List.replicate 32 0) () rfl (by decide)
    (by decide) (by decide) (by decide) (by decide)
  simpa using h

theorem get_next_pc_aligned (pc len : Nat)
    (h : pc % constants.WORD_BYTES = 0) :
    get_next_pc pc len % constants.WORD_BYTES = 0 := by
  unfold get_next_pc
  simp only [constants.WORD_BYTES] at h ⊢
  split
  · rw [wrap32, Nat.mod_mod_of_dvd _ (by norm_num : (4 : Nat) ∣ 4294967296)]
    omega
  · rfl

/-- A single `tick` preserves word alignment of the program counter: the
fall-through path adds `WORD_BYTES` (wrapping) or resets to 0, a jump is
only installed after the alignment check, and every other path leaves the
program counter unchanged. -/
theorem tick_pc_aligned {σ : Type} (S : StorageOps σ) (F : FloatOps)
    (p : Processor) (buf : List Nat) (storage : σ)
    (h : p.program_counter % constants.WORD_BYTES = 0) :
    (Processor.tick S F p buf storage).1.program_counter
      % constants.WORD_BYTES = 0 := by
  unfold Processor.tick
  by_cases hs : p.state.isSome
  · simp [hs, h]
  · simp only [hs, Bool.false_eq_true, if_false]
    unfold Processor.getNewState
    by_cases hg : wrap32 buf.length
        < wrap32 (p.program_counter + constants.WORD_BYTES)
    · simp [hg, h]
    · simp only [if_neg hg]
      rcases he : logic.tick S F p.registers storage
        (readWordLE buf p.program_counter) p.program_counter
        with ⟨tr, regs2, storage2⟩
      cases tr with
      | Next => exact get_next_pc_aligned _ _ h
      | Jump target link =>
          dsimp only
          by_cases ht : target % constants.WORD_BYTES = 0
          · rw [if_neg (by simp [ht])]
            by_cases hj : wrap32 buf.length ≤ target
            · rw [if_pos hj]
              exact h
            · rw [if_neg hj]
              exact ht
          · rw [if_pos ht]
            exact h
      | Stop code => exact h

/-- Claim C10: starting from a freshly constructed (or reset) processor,
after any sequence of `tick` calls — each with an arbitrary instruction
buffer, over an arbitrary storage threaded through the sequence — the
program counter is a multiple of `WORD_BYTES`. -/
theorem claim_C10_pc_alignment {σ : Type} (S : StorageOps σ) (F : FloatOps)
    (storage : σ) (buffers : List (List Nat)) :
    (buffers.foldl (fun acc buf => Processor.tick S F acc.1 buf acc.2)
        (Processor.new, storage)).1.program_counter
      % constants.WORD_BYTES = 0 := by
  have general : ∀ (bufs : List (List Nat)) (q : Processor × σ),
      q.1.program_counter % constants.WORD_BYTES = 0 →
      (bufs.foldl (fun acc buf => Processor.tick S F acc.1 buf acc.2)
          q).1.program_counter % constants.WORD_BYTES = 0 := by
    intro bufs
    induction bufs with
    | nil => exact fun q h => h
    | cons b rest ih =>
        intro q h
        simp only [List.foldl_cons]
        exact ih _ (tick_pc_aligned S F q.1 b q.2 h)
  exact general buffers (Processor.new, storage) rfl

/-! ## Assembler pass 2 (`src/vasm/src/lib.rs`).

A `JumpTarget` is either a literal offset (already parsed into the
destination type, so carried as its integer value) or a label; the label
map sends label text to the instruction index recorded in pass 1.
`NumCast::from` on the `i64` byte distance succeeds exactly when the value
is representable in the destination type, whose range is passed here as
`tMin`/`tMax`: `i16` (the 16-bit immediate) for branches and `i32` (the
`Address` type) for jumps. -/

inductive JumpTarget where
  | address (value : Int)
  | label (name : String)
deriving DecidableEq, Repr

/-- `ParsedInstruction`: a finished word, a pending branch, a pending jump,
or a pending instruction-address load. -/
inductive ParsedInstruction where
  | complete (word : Nat)
  | branch (opcode : Nat) (rs1 : Nat) (target : JumpTarget)
  | jump (opcode : Nat) (target : JumpTarget)
  | loadInstructionAddress (label : String) (rd : Nat) (upper : Bool)
deriving DecidableEq, Repr

/-- `make_i_instruction`: shift each operand into place, mask to its field,
bitwise-or the parts (`immediate as u32` sign-extends, then the 16-bit mask
truncates). -/
def make_i_instruction (oc rd rs1 : Nat) (immediate : Int) : Nat :=
  ((oc <<< constants.OPCODE_OFFSET) &&& constants.OPCODE_MASK) |||
  ((rd <<< constants.RD_OFFSET) &&& constants.RD_MASK) |||
  ((rs1 <<< constants.RS1_OFFSET) &&& constants.RS1_MASK) |||
  (wrap32I immediate &&& constants.IMMEDIATE_MASK)

/-- `make_j_instruction`: opcode plus the address value truncated to the
26-bit address field. -/
def make_j_instruction (oc : Nat) (address : Int) : Nat :=
  ((oc <<< constants.OPCODE_OFFSET) &&& constants.OPCODE_MASK) |||
  (wrap32I address &&& constants.ADDRESS_MASK)

/-- The relative byte distance of a label at instruction index `l` from
instruction index `cur`: `(l - cur) * WORD_BYTES` over `i64` (both indices
fit `u32`, so the product cannot overflow). -/
def byte_dist (l cur : Nat) : Int :=
  ((l : Int) - (cur : Int)) * (constants.WORD_BYTES : Int)

/-- `resolve_jump_target`: literal targets pass through; label targets look
up the instruction index, form the byte distance and convert it into the
destination type via `NumCast`, failing with `Jump distance too far` when
it is not representable. -/
def resolve_jump_target (tMin tMax : Int) (labels : List (String × Nat))
    (target : JumpTarget) (current_instr : Nat) : Except String Int :=
  match target with
  | .address a => .ok a
  | .label name =>
    match labels.lookup name with
    | none => .error "Label not found"
    | some l =>
        let d := byte_dist l current_instr
        if tMin ≤ d ∧ d ≤ tMax then .ok d
        else .error "Jump distance too far"

/-- `finalize_instruction`: branches resolve through the `i16` immediate
range, jumps through the `i32` `Address` range; instruction-address loads
emit `SLO` (opcode 7) or `SHI` (opcode 8) halves of
`label_index * WORD_BYTES`. -/
def finalize_instruction (labels : List (String × Nat))
    (instr : ParsedInstruction) (current_instr : Nat) : Except String Nat :=
  match instr with
  | .complete w => .ok w
  | .branch oc rs1 t =>
    match resolve_jump_target (-32768) 32767 labels t current_instr with
    | .error e => .error e
    | .ok d => .ok (make_i_instruction oc 0 rs1 d)
  | .jump oc t =>
    match resolve_jump_target (-2147483648) 2147483647 labels t
        current_instr with
    | .error e => .error e
    | .ok d => .ok (make_j_instruction oc d)
  | .loadInstructionAddress name rd upper =>
    match labels.lookup name with
    | none => .error "Label not found"
    | some l =>
        let address := wrap32 (l * constants.WORD_BYTES)
        if upper then .ok (make_i_instruction 8 rd 0 (toI16 (address >>> 16)))
        else .ok (make_i_instruction 7 rd 0 (toI16 address))

/-- Claim C9 counterexample: a jump to a label 8388608 instructions ahead
has byte distance `2^25`, which does not fit the signed 26-bit address
field, yet `finalize_instruction` succeeds — the code only checks the
`i32` range — and the sign-extended address field of the emitted word
decodes to `-2^25`, not the intended distance. -/
theorem claim_C9_counterexample :
    finalize_instruction [("x", 8388608)] (.jump 38 (.label "x")) 0
      = .ok (make_j_instruction 38 33554432) ∧
    ¬(-(2 ^ 25) ≤ (33554432 : Int) ∧ (33554432 : Int) ≤ 2 ^ 25 - 1) ∧
    toI32 (addressField (make_j_instruction 38 33554432)) = -33554432 := by
  refine ⟨rfl, by decide, by decide⟩

/-- Claim C9 (amended): a branch or jump to a label at instruction index
`l`, finalized at index `i`, is emitted with the byte distance
`(l - i) * WORD_BYTES` embedded, and fails with `Jump distance too far`
exactly when that distance does not fit the destination type: the 16-bit
immediate for branches, but the 32-bit `Address` type for jumps — the
26-bit address field is not checked, out-of-field distances within `i32`
are silently truncated on emission. -/
theorem claim_C9_resolve (labels : List (String × Nat)) (name : String)
    (l cur oc rs1 : Nat) (hl : labels.lookup name = some l) :
    ((-32768 ≤ byte_dist l cur ∧ byte_dist l cur ≤ 32767 →
      finalize_instruction labels (.branch oc rs1 (.label name)) cur
        = .ok (make_i_instruction oc 0 rs1 (byte_dist l cur))) ∧
     (¬(-32768 ≤ byte_dist l cur ∧ byte_dist l cur ≤ 32767) →
      finalize_instruction labels (.branch oc rs1 (.label name)) cur
        = .error "Jump distance too far")) ∧
    ((-2147483648 ≤ byte_dist l cur ∧ byte_dist l cur ≤ 2147483647 →
      finalize_instruction labels (.jump oc (.label name)) cur
        = .ok (make_j_instruction oc (byte_dist l cur))) ∧
     (¬(-2147483648 ≤ byte_dist l cur ∧ byte_dist l cur ≤ 2147483647) →
      finalize_instruction labels (.jump oc (.label name)) cur
        = .error "Jump distance too far")) := by
  refine ⟨⟨fun h => ?_, fun h => ?_⟩, ⟨fun h => ?_, fun h => ?_⟩⟩ <;>
    simp [finalize_instruction, resolve_jump_target, hl, h]

/-- Claim C9 witness: the amended resolution at concrete inputs — a
backward branch distance of `-8` bytes is emitted, a forward branch
distance of 65536 bytes fails, and an in-`i32`-range jump is emitted. -/
theorem claim_C9_resolve_witness :
    finalize_instruction [("loop", 0)] (.branch 36 9 (.label "loop")) 2
      = .ok (make_i_instruction 36 0 9 (byte_dist 0 2)) ∧
    finalize_instruction [("far", 16384)] (.branch 36 9 (.label "far")) 0
      = .error "Jump distance too far" ∧
    finalize_instruction [("far", 16384)] (.jump 38 (.label "far")) 0
      = .ok (make_j_instruction 38 (byte_dist 16384 0)) := by
  refine ⟨?_, ?_, ?_⟩
  · exact ((claim_C9_resolve [("loop", 0)] "loop" 0 2 36 9 rfl).1).1
      (by decide)
  · exact ((claim_C9_resolve [("far", 16384)] "far" 16384 0 36 9 rfl).1).2
      (by decide)
  · exact ((claim_C9_resolve [("far", 16384)] "far" 16384 0 38 9 rfl).2).1
      (by decide)

end VCpu
